import Mathlib

/-!
Verification development for the depth-view repository
(`src/depthview/depth_view.py` and `src/depthview/zed_capture.py`).

The embedding is shallow:
* a depth pixel is a `Val`: a finite rational, or one of the IEEE-754
  non-finite markers NaN / +Inf / -Inf; a depth array is a list of rows;
* the numpy elementwise operations of `normalize_image` are modelled by
  `Val.sub`, `Val.div`, `Val.mul`, which follow the IEEE-754 special-value
  rules that numpy floating arithmetic uses (division by zero yields an
  infinity or NaN and raises no error);
* the `astype(uint8)` cast truncates a finite value toward zero and reduces
  it modulo 256 (the C truncating conversion numpy performs); casting a
  non-finite value has no defined result, so the model returns `none` for it
  (the source itself notes `depth_raw might have NaN, PosInf, NegInf`);
* a Python exception escaping a function is an `Except.error`; the only
  exception these code paths raise is numpy's `ValueError` from reducing an
  empty (all-non-finite) selection;
* `zed_capture.py`'s control flow around the camera SDK is modelled as the
  event trace the code performs against an external camera world; the SDK
  calls themselves are opaque events.
-/

set_option autoImplicit false

namespace DepthView

/-- Errors a call can raise.  `valueError` is numpy's `ValueError`
("zero-size array to reduction operation") raised by `nanmax`/`nanmin` on an
empty selection.  `emptyDepthRange` is the named error the specification
asks for; it appears nowhere in the code and is declared here only so that
statements can compare the raised error against the spec's named one. -/
inductive Err where
  | valueError
  | emptyDepthRange
  deriving DecidableEq

/-- One entry of a depth array: a finite value (as an exact rational) or a
non-finite IEEE-754 marker. -/
inductive Val where
  | fin (q : ℚ)
  | nan
  | posInf
  | negInf
  deriving DecidableEq

instance : Inhabited Val := ⟨Val.nan⟩

/-- A depth array: a list of rows of pixels. -/
abbrev DMat := List (List Val)

/-- IEEE-754 subtraction on pixel values (numpy broadcast `depth - vmin`). -/
def Val.sub : Val → Val → Val
  | .nan, _ => .nan
  | _, .nan => .nan
  | .fin a, .fin b => .fin (a - b)
  | .posInf, .posInf => .nan
  | .posInf, _ => .posInf
  | .negInf, .negInf => .nan
  | .negInf, _ => .negInf
  | .fin _, .posInf => .negInf
  | .fin _, .negInf => .posInf

/-- IEEE-754 division on pixel values.  Note that dividing by a (positive)
zero raises no error in numpy: it yields `+Inf`, `-Inf` or `NaN`. -/
def Val.div : Val → Val → Val
  | .nan, _ => .nan
  | _, .nan => .nan
  | .fin a, .fin b =>
      if b = 0 then (if a = 0 then .nan else if 0 < a then .posInf else .negInf)
      else .fin (a / b)
  | .fin _, .posInf => .fin 0
  | .fin _, .negInf => .fin 0
  | .posInf, .fin b => if 0 ≤ b then .posInf else .negInf
  | .negInf, .fin b => if 0 ≤ b then .negInf else .posInf
  | .posInf, .posInf => .nan
  | .posInf, .negInf => .nan
  | .negInf, .posInf => .nan
  | .negInf, .negInf => .nan

/-- IEEE-754 multiplication on pixel values (used as `· * 255.0`). -/
def Val.mul : Val → Val → Val
  | .nan, _ => .nan
  | _, .nan => .nan
  | .fin a, .fin b => .fin (a * b)
  | .fin a, .posInf => if a = 0 then .nan else if 0 < a then .posInf else .negInf
  | .fin a, .negInf => if a = 0 then .nan else if 0 < a then .negInf else .posInf
  | .posInf, .fin b => if b = 0 then .nan else if 0 < b then .posInf else .negInf
  | .negInf, .fin b => if b = 0 then .nan else if 0 < b then .negInf else .posInf
  | .posInf, .posInf => .posInf
  | .posInf, .negInf => .negInf
  | .negInf, .posInf => .negInf
  | .negInf, .negInf => .posInf

/-- Truncation toward zero, the rounding of both Python's `int()` and the C
float-to-integer conversion numpy's `astype` performs. -/
def truncInt (q : ℚ) : ℤ :=
  if 0 ≤ q then ⌊q⌋ else ⌈q⌉

/-- `astype(numpy.uint8)` on one value: truncate toward zero and keep the low
8 bits (the C truncating conversion).  Converting a non-finite value has no
defined result in C/numpy, so the model leaves it unspecified (`none`). -/
def castU8 : Val → Option ℕ
  | .fin q => some ((truncInt q).emod 256).toNat
  | _ => none

/-- The finite entries of a depth array, in row-major order
(`depth[numpy.isfinite(depth)]`). -/
def finiteVals (d : DMat) : List ℚ :=
  d.flatten.filterMap fun v =>
    match v with
    | .fin q => some q
    | _ => none

/-- `finitemax` (depth_view.py lines 14-15):
`np.nanmax(depth[np.isfinite(depth)])`.  On an empty selection numpy's
reduction raises `ValueError`. -/
def finitemax (depth : DMat) : Except Err ℚ :=
  match finiteVals depth with
  | [] => Except.error Err.valueError
  | q :: qs => Except.ok (qs.foldl max q)

/-- `finitemin` (depth_view.py lines 18-19). -/
def finitemin (depth : DMat) : Except Err ℚ :=
  match finiteVals depth with
  | [] => Except.error Err.valueError
  | q :: qs => Except.ok (qs.foldl min q)

/-- `vmin = finitemin(depth_raw) if vmin is None else vmin` (and likewise
for `vmax`): a supplied bound is used as given, otherwise the finite
extremum of the array is computed (and may raise). -/
def resolveBound (given : Option Val) (defaultVal : Except Err ℚ) : Except Err Val :=
  match given with
  | some v => Except.ok v
  | none => defaultVal.map Val.fin

/-- The per-pixel arithmetic of depth_view.py lines 25-26:
`(depth_raw - vmin) / (vmax - vmin) * 255.0` followed by `astype(np.uint8)`. -/
def normalize_pixel (vminV vmaxV : Val) (v : Val) : Option ℕ :=
  castU8 (Val.mul (Val.div (Val.sub v vminV) (Val.sub vmaxV vminV)) (Val.fin 255))

/-- `normalize_image(depth_raw, vmax=None, vmin=None)` (depth_view.py lines
22-27).  The Python keyword order (`vmax` before `vmin`) is kept.  `vmin` is
resolved first, as in the source, so an empty finite range is reported from
the `finitemin` call. -/
def normalize_image (depth_raw : DMat) (vmax vmin : Option Val) :
    Except Err (List (List (Option ℕ))) :=
  match resolveBound vmin (finitemin depth_raw), resolveBound vmax (finitemax depth_raw) with
  | Except.ok vminV, Except.ok vmaxV =>
      Except.ok (depth_raw.map (List.map (normalize_pixel vminV vmaxV)))
  | Except.error e, _ => Except.error e
  | _, Except.error e => Except.error e

/-- `depth_as_colorimage(depth_raw, vmin=None, vmax=None, colormap=...)`
(depth_view.py lines 30-35): normalize, then hand the 8-bit image to the
external `cv2.applyColorMap`, modelled as an arbitrary function `colormap`.
The source forwards its arguments as `normalize_image(depth_raw, vmax, vmin)`. -/
def depth_as_colorimage {α : Type} (colormap : List (List (Option ℕ)) → α)
    (depth_raw : DMat) (vmin vmax : Option Val) : Except Err α :=
  (normalize_image depth_raw vmax vmin).map colormap

/-- `depth_as_gray` (depth_view.py lines 38-43): normalize, then
`cv2.merge((gray, gray, gray))`, i.e. replicate the channel three times. -/
def depth_as_gray (depth_raw : DMat) (vmin vmax : Option Val) :
    Except Err (List (List (Option ℕ × Option ℕ × Option ℕ))) :=
  (normalize_image depth_raw vmax vmin).map fun g => g.map (List.map fun p => (p, p, p))

/-- An image as the shape data the claims are about. -/
structure Image where
  height : ℕ
  width : ℕ
  channels : ℕ
  deriving DecidableEq

/-- External collaborator `cv2.resize(image, dsize)` with `dsize = (width,
height)`: returns an image of the requested size (contract of the image
library; a non-positive requested size is clamped to 0 here, which the
claims never exercise since they take a positive scale). -/
def cv2_resize (img : Image) (dsize : ℤ × ℤ) : Image :=
  { img with width := dsize.1.toNat, height := dsize.2.toNat }

/-- Python's `int()` applied to a float: truncation toward zero. -/
def pyInt (q : ℚ) : ℤ := truncInt q

/-- `resize_image(image, rate)` (depth_view.py lines 46-48):
`H, W = image.shape[:2]; cv2.resize(image, (int(W * rate), int(H * rate)))`. -/
def resize_image (image : Image) (rate : ℚ) : Image :=
  cv2_resize image (pyInt ((image.width : ℚ) * rate), pyInt ((image.height : ℚ) * rate))

/-- Lexicographic comparison of character lists, the order Python's
`sorted` uses on strings of filenames. -/
def charListLe : List Char → List Char → Bool
  | [], _ => true
  | _ :: _, [] => false
  | a :: as, b :: bs => if a < b then true else if b < a then false else charListLe as bs

def strLe (a b : String) : Bool := charListLe a.toList b.toList

def insertLe (x : String) : List String → List String
  | [] => [x]
  | y :: ys => if strLe x y then x :: y :: ys else y :: insertLe x ys

/-- `sorted(...)` on a list of filenames (insertion sort; only the length
and the ordering matter to the claims). -/
def pySorted : List String → List String
  | [] => []
  | x :: xs => insertLe x (pySorted xs)

/-- The three filename collections found under a capture session directory:
`left/**/*.png`, `right/**/*.png`, `zed-depth/**/*.npy`. -/
structure SessionDir where
  left_pngs : List String
  right_pngs : List String
  depth_npys : List String

/-- The iteration sequence of `view_by_colormap` (depth_view.py lines
65-68): the sorted left images zipped positionally with the sorted depth
arrays.  The right collection is globbed into `rightdir` but never read;
`zip` stops at the shorter of its two arguments and touches nothing beyond
it, so extra files raise nothing. -/
def view_by_colormap_pairs (s : SessionDir) : List (String × String) :=
  List.zip (pySorted s.left_pngs) (pySorted s.depth_npys)

/-- The public names defined by module `depthview.depth_view`. -/
def depth_view_module_defs : List String :=
  [ "finitemax", "finitemin", "normalize_image", "depth_as_colorimage",
    "depth_as_gray", "resize_image", "as_matrix", "view_by_colormap",
    "view3d", "depth_viewer_main" ]

/-- The name `zed_capture.py` line 19 imports from `depthview.depth_view`
and calls on each depth array in the capture loop (line 141). -/
def zed_capture_depth_view_import : String := "as_colorimage"

/-- Camera resolutions of the SDK's `sl.RESOLUTION` used by the code;
`AUTO` is the SDK's device-native default. -/
inductive Resolution where
  | AUTO
  | HD2K
  | HD1200
  | HD1080
  | HD720
  | SVGA
  | VGA
  deriving DecidableEq

/-- Depth modes of `sl.DEPTH_MODE` the code touches; `PERFORMANCE` stands
for the SDK default (its identity is irrelevant to the claims). -/
inductive DepthMode where
  | PERFORMANCE
  | ULTRA
  deriving DecidableEq

/-- The input source recorded in `sl.InitParameters`: live camera (the
default), a replay `.svo` file, or a network stream. -/
inductive InputType where
  | live
  | svoFile (path : String)
  | stream (ip : String) (port : Option ℕ)
  deriving DecidableEq

/-- The fields of `sl.InitParameters` the capture code sets. -/
structure InitParameters where
  camera_resolution : Resolution := Resolution.AUTO
  depth_mode : DepthMode := DepthMode.PERFORMANCE
  input : InputType := InputType.live
  deriving DecidableEq

/-- The argparse arguments of `zed_capture.py main` with their defaults. -/
structure CaptureArgs where
  input_svo_file : String := ""
  ip_address : String := ""
  resolution : String := ""
  confidence_threshold : ℚ := 100
  outdir : String := "outdir"

/-- Python's substring test `sub in s`. -/
def strContains (s sub : String) : Bool :=
  let l := s.toList
  let p := sub.toList
  (List.range (l.length + 1)).any fun i => (l.drop i).take p.length == p

/-- Python's `s.endswith(t)`. -/
def strEndsWith (s t : String) : Bool :=
  let l := s.toList
  let p := t.toList
  decide (p.length ≤ l.length) && (l.drop (l.length - p.length) == p)

/-- Python's `s.isdigit()` (nonempty and all digits). -/
def strIsDigit (s : String) : Bool :=
  (s.toList ≠ [] : Bool) && s.toList.all Char.isDigit

/-- `parse_args_to_params(args, init_params)` (zed_capture.py lines 25-64):
choose the input source from `--input_svo_file` / `--ip_address`, then
select the camera resolution by substring matching on `--resolution`; an
empty or unrecognized resolution leaves the device-native default. -/
def parse_args_to_params (args : CaptureArgs) (init : InitParameters) : InitParameters :=
  let ip := args.ip_address
  let ipDigits : String := String.mk (ip.toList.filter fun c => c ≠ ':' ∧ c ≠ '.')
  let p1 : InitParameters :=
    if 0 < args.input_svo_file.length ∧ strEndsWith args.input_svo_file ".svo" then
      { init with input := InputType.svoFile args.input_svo_file }
    else if 0 < ip.length then
      if strIsDigit ipDigits ∧ (ip.split (· = '.')).length = 4
          ∧ (ip.split (· = ':')).length = 2 then
        let parts := ip.split (· = ':')
        { init with input :=
            InputType.stream (parts.headD "") (some ((parts.getD 1 "").toNat?.getD 0)) }
      else if strIsDigit ipDigits ∧ (ip.split (· = '.')).length = 4 then
        { init with input := InputType.stream ip none }
      else init
    else init
  if strContains args.resolution "HD2K" then
    { p1 with camera_resolution := Resolution.HD2K }
  else if strContains args.resolution "HD1200" then
    { p1 with camera_resolution := Resolution.HD1200 }
  else if strContains args.resolution "HD1080" then
    { p1 with camera_resolution := Resolution.HD1080 }
  else if strContains args.resolution "HD720" then
    { p1 with camera_resolution := Resolution.HD720 }
  else if strContains args.resolution "SVGA" then
    { p1 with camera_resolution := Resolution.SVGA }
  else if strContains args.resolution "VGA" then
    { p1 with camera_resolution := Resolution.VGA }
  else
    p1

/-- The `InitParameters` that `capture_main` passes to `zed.open`
(zed_capture.py lines 76-83): it calls `parse_args_to_params`, then
unconditionally sets `depth_mode = ULTRA` and `camera_resolution = HD2K`
before opening the device. -/
def capture_open_params (args : CaptureArgs) : InitParameters :=
  let p := parse_args_to_params args {}
  { p with depth_mode := DepthMode.ULTRA, camera_resolution := Resolution.HD2K }

/-- Observable events of a run of `zed_capture.py`, in program order. -/
inductive CapEv where
  | usageErrorExit
  | mkdirs
  | cameraOpen
  | cameraOpenFailExit
  | windowCreate
  | saveParams
  | frameSaved (i : ℕ)
  | showPreview
  | quitExit
  | cameraClose
  | windowDestroy
  deriving DecidableEq

/-- How a run ends. -/
inductive CapTerm where
  | usage
  | openFail
  | quitByKey
  | streamPending
  deriving DecidableEq

/-- The external camera world a capture run interacts with: whether
`zed.open` succeeds, and for each loop iteration whether `zed.grab`
succeeds and which key `cv2.waitKey` reports. -/
structure CamWorld where
  open_ok : Bool
  frames : List (Bool × ℕ)

/-- The `while True` loop of `capture_main` (zed_capture.py lines 106-148):
a failed grab `continue`s; a successful grab saves the frame triple, shows
the preview, and on the key `q` (code 113) calls `exit()`, terminating the
process inside the loop.  The loop has no `break`, so the
`if "zed" in locals(): zed.close()` after it (lines 150-151) is
unreachable and no close event is ever emitted.  An exhausted frame list
models a run still blocked inside the loop (`streamPending`). -/
def capture_loop_events : List (Bool × ℕ) → ℕ → List CapEv × CapTerm
  | [], _ => ([], CapTerm.streamPending)
  | (ok, key) :: rest, counter =>
    if ok then
      if key = 113 then
        ([CapEv.frameSaved counter, CapEv.showPreview, CapEv.quitExit], CapTerm.quitByKey)
      else
        let r := capture_loop_events rest (counter + 1)
        (CapEv.frameSaved counter :: CapEv.showPreview :: r.1, r.2)
    else
      capture_loop_events rest counter

/-- `capture_main(args)` (zed_capture.py lines 67-151): create the output
directories, open the camera (exiting with status 1 on failure), create the
display window, save the camera parameters, then enter the capture loop. -/
def capture_main_events (_args : CaptureArgs) (w : CamWorld) : List CapEv × CapTerm :=
  if w.open_ok then
    let r := capture_loop_events w.frames 0
    (CapEv.mkdirs :: CapEv.cameraOpen :: CapEv.windowCreate :: CapEv.saveParams :: r.1, r.2)
  else
    ([CapEv.mkdirs, CapEv.cameraOpen, CapEv.cameraOpenFailExit], CapTerm.openFail)

/-- `main()` of zed_capture.py (lines 186-190): if both `--input_svo_file`
and `--ip_address` are non-empty, print the usage message and `exit()`
before `capture_main` runs (so before any device I/O); otherwise run
`capture_main`. -/
def main_events (args : CaptureArgs) (w : CamWorld) : List CapEv × CapTerm :=
  if 0 < args.input_svo_file.length ∧ 0 < args.ip_address.length then
    ([CapEv.usageErrorExit], CapTerm.usage)
  else
    capture_main_events args w

end DepthView

namespace DepthView

/-! ## Helper lemmas -/

theorem forall2_map_self {α β : Type} (R : α → β → Prop) (f : α → β) :
    ∀ l : List α, (∀ a ∈ l, R a (f a)) → List.Forall₂ R l (l.map f)
  | [], _ => List.Forall₂.nil
  | x :: xs, h => List.Forall₂.cons (h x (List.mem_cons_self x xs))
      (forall2_map_self R f xs fun a ha => h a (List.mem_cons_of_mem x ha))

theorem finitemin_of_empty {d : DMat} (h : finiteVals d = []) :
    finitemin d = Except.error Err.valueError := by
  simp [finitemin, h]

theorem finitemax_of_empty {d : DMat} (h : finiteVals d = []) :
    finitemax d = Except.error Err.valueError := by
  simp [finitemax, h]

theorem normalize_image_default_eq (d : DMat) (mn mx : ℚ)
    (hmn : finitemin d = Except.ok mn) (hmx : finitemax d = Except.ok mx) :
    normalize_image d none none =
      Except.ok (d.map (List.map (normalize_pixel (Val.fin mn) (Val.fin mx)))) := by
  unfold normalize_image resolveBound
  rw [hmn, hmx]
  rfl

theorem normalize_pixel_fin (mn mx q : ℚ) (hne : mn ≠ mx) :
    normalize_pixel (Val.fin mn) (Val.fin mx) (Val.fin q) =
      some ((truncInt ((q - mn) / (mx - mn) * 255)).emod 256).toNat := by
  have hsub : mx - mn ≠ 0 := sub_ne_zero.mpr (Ne.symm hne)
  simp [normalize_pixel, Val.sub, Val.div, Val.mul, castU8, hsub]

theorem normalize_pixel_nonfin (mn mx : ℚ) (v : Val) (hv : ∀ q : ℚ, v ≠ Val.fin q) :
    normalize_pixel (Val.fin mn) (Val.fin mx) v = none := by
  cases v with
  | fin q => exact absurd rfl (hv q)
  | nan => norm_num [normalize_pixel, Val.sub, Val.div, Val.mul, castU8]
  | posInf =>
      by_cases h : (0:ℚ) ≤ mx - mn <;>
        norm_num [normalize_pixel, Val.sub, Val.div, Val.mul, castU8, h]
  | negInf =>
      by_cases h : (0:ℚ) ≤ mx - mn <;>
        norm_num [normalize_pixel, Val.sub, Val.div, Val.mul, castU8, h]

theorem normalize_pixel_eq_range (c : ℚ) (v : Val) :
    normalize_pixel (Val.fin c) (Val.fin c) v = none := by
  cases v with
  | fin q =>
      by_cases hq : q - c = 0
      · norm_num [normalize_pixel, Val.sub, Val.div, Val.mul, castU8, sub_self, hq]
      · by_cases hq2 : (0:ℚ) < q - c <;>
          norm_num [normalize_pixel, Val.sub, Val.div, Val.mul, castU8, sub_self, hq, hq2]
  | nan => norm_num [normalize_pixel, Val.sub, Val.div, Val.mul, castU8]
  | posInf => norm_num [normalize_pixel, Val.sub, Val.div, Val.mul, castU8, sub_self]
  | negInf => norm_num [normalize_pixel, Val.sub, Val.div, Val.mul, castU8, sub_self]

theorem u8_bound (x : ℤ) : (x.emod 256).toNat < 256 := by
  have h1 : 0 ≤ x.emod 256 := Int.emod_nonneg x (by norm_num)
  have h2 : x.emod 256 < 256 := Int.emod_lt_of_pos x (by norm_num)
  omega

theorem insertLe_length (x : String) (l : List String) :
    (insertLe x l).length = l.length + 1 := by
  induction l with
  | nil => rfl
  | cons y ys ih => by_cases h : strLe x y = true <;> simp [insertLe, h, ih]

theorem pySorted_length (l : List String) : (pySorted l).length = l.length := by
  induction l with
  | nil => rfl
  | cons x xs ih => simp [pySorted, insertLe_length, ih]

theorem capture_loop_events_shape (fs : List (Bool × ℕ)) (c : ℕ) :
    ∀ e ∈ (capture_loop_events fs c).1,
      e = CapEv.quitExit ∨ e = CapEv.showPreview ∨ ∃ i, e = CapEv.frameSaved i := by
  induction fs generalizing c with
  | nil => simp [capture_loop_events]
  | cons f rest ih =>
    obtain ⟨ok, key⟩ := f
    cases ok with
    | false => simpa [capture_loop_events] using ih c
    | true =>
      by_cases hkey : key = 113
      · intro e he
        simp [capture_loop_events, hkey] at he
        rcases he with h | h | h
        · exact Or.inr (Or.inr ⟨c, h⟩)
        · exact Or.inr (Or.inl h)
        · exact Or.inl h
      · intro e he
        simp [capture_loop_events, hkey] at he
        rcases he with h | h | h
        · exact Or.inr (Or.inr ⟨c, h⟩)
        · exact Or.inr (Or.inl h)
        · exact ih (c + 1) e h

end DepthView

namespace DepthView

/-! ## Claim theorems -/

/-- C1 (counterexample): on the all-NaN depth array `[[NaN]]`,
`normalize_image` with default `vmin`/`vmax` raises the numeric library's
generic `ValueError`, which is not the named `EmptyDepthRange` error the
claim requires. -/
theorem allnonfinite_not_named_error :
    normalize_image [ [ Val.nan ] ] none none = Except.error Err.valueError ∧
    Err.valueError ≠ Err.emptyDepthRange :=
  ⟨rfl, by decide⟩

/-- C1 (amended): for every depth array with no finite entry,
`normalize_image`, `depth_as_colorimage` (for every colormap) and
`depth_as_gray` called with default `vmin`/`vmax` raise an error — the
generic `ValueError` from the empty finite-range reduction — and return no
result. -/
theorem allnonfinite_error (d : DMat) (h : finiteVals d = []) :
    normalize_image d none none = Except.error Err.valueError ∧
    (∀ {α : Type} (colormap : List (List (Option ℕ)) → α),
      depth_as_colorimage colormap d none none = Except.error Err.valueError) ∧
    depth_as_gray d none none = Except.error Err.valueError := by
  have hn : normalize_image d none none = Except.error Err.valueError := by
    unfold normalize_image resolveBound
    rw [finitemin_of_empty h, finitemax_of_empty h]
    rfl
  refine ⟨hn, ?_, ?_⟩
  · intro α colormap
    simp [depth_as_colorimage, hn, Except.map]
  · simp [depth_as_gray, hn, Except.map]

/-- Witness for C1's amended theorem at the concrete array `[[NaN]]`. -/
theorem allnonfinite_error_witness :
    finiteVals [ [ Val.nan ] ] = [] ∧
    normalize_image [ [ Val.nan ] ] none none = Except.error Err.valueError :=
  ⟨rfl, (allnonfinite_error [ [ Val.nan ] ] rfl).1⟩

/-- C2: with the default bounds `vmin = finitemin`, `vmax = finitemax`, and
these distinct, `normalize_image` maps every pixel holding the finite
minimum to 0 and every pixel holding the finite maximum to 255. -/
theorem normalize_default_endpoints (d : DMat) (mn mx : ℚ)
    (hmn : finitemin d = Except.ok mn) (hmx : finitemax d = Except.ok mx)
    (hne : mn ≠ mx) :
    ∃ out, normalize_image d none none = Except.ok out ∧
      List.Forall₂ (List.Forall₂ fun v o =>
        (v = Val.fin mn → o = some 0) ∧ (v = Val.fin mx → o = some 255)) d out := by
  refine ⟨_, normalize_image_default_eq d mn mx hmn hmx, ?_⟩
  refine forall2_map_self _ _ _ fun row _ => forall2_map_self _ _ _ fun v _ => ⟨?_, ?_⟩
  · rintro rfl
    rw [normalize_pixel_fin mn mx mn hne]
    have hz : (mn - mn) / (mx - mn) * 255 = 0 := by rw [sub_self, zero_div, zero_mul]
    rw [hz]
    norm_num [truncInt]
  · rintro rfl
    rw [normalize_pixel_fin mn mx mx hne]
    have hsub : mx - mn ≠ 0 := sub_ne_zero.mpr (Ne.symm hne)
    have ho : (mx - mn) / (mx - mn) * 255 = 255 := by rw [div_self hsub, one_mul]
    rw [ho]
    norm_num [truncInt]
    rfl

/-- Witness for C2 on the concrete array `[[0, 2]]`. -/
theorem normalize_default_endpoints_witness :
    finitemin [ [ Val.fin 0, Val.fin 2 ] ] = Except.ok 0 ∧
    finitemax [ [ Val.fin 0, Val.fin 2 ] ] = Except.ok 2 ∧
    ∃ out, normalize_image [ [ Val.fin 0, Val.fin 2 ] ] none none = Except.ok out ∧
      List.Forall₂ (List.Forall₂ fun v o =>
        (v = Val.fin 0 → o = some 0) ∧ (v = Val.fin 2 → o = some 255))
        [ [ Val.fin 0, Val.fin 2 ] ] out := by
  have hmn : finitemin [ [ Val.fin 0, Val.fin 2 ] ] = Except.ok 0 := by
    simp [finitemin, finiteVals]
  have hmx : finitemax [ [ Val.fin 0, Val.fin 2 ] ] = Except.ok 2 := by
    simp [finitemax, finiteVals]
  exact ⟨hmn, hmx,
    normalize_default_endpoints [ [ Val.fin 0, Val.fin 2 ] ] 0 2 hmn hmx (by norm_num)⟩

/-- C3 (counterexample): on `[[5]]` — one finite pixel, so the default
`vmin` and `vmax` coincide — the scaled value is `0/0`, i.e. NaN, and the
cast yields no defined unsigned 8-bit value for that finite pixel:
the output pixel is unspecified, not the claimed formula value. -/
theorem normalize_formula_counterexample :
    normalize_image [ [ Val.fin 5 ] ] none none = Except.ok [ [ none ] ] ∧
    ¬ ∃ n : ℕ, normalize_image [ [ Val.fin 5 ] ] none none = Except.ok [ [ some n ] ] := by
  have h5 : normalize_image [ [ Val.fin 5 ] ] none none = Except.ok [ [ none ] ] := by
    rw [normalize_image_default_eq [ [ Val.fin 5 ] ] 5 5 rfl rfl]
    simp [normalize_pixel_eq_range]
  refine ⟨h5, ?_⟩
  rintro ⟨n, hn⟩
  rw [h5] at hn
  simp at hn

/-- C3 (amended): if the array has a finite entry and its finite minimum
and maximum are distinct, `normalize_image` with default bounds returns a
same-shape array (the `Forall₂` pairing) in which every finite pixel `q`
holds `(q - vmin) / (vmax - vmin) * 255` truncated toward zero and reduced
to an unsigned 8-bit integer, and every defined output value is below 256. -/
theorem normalize_formula_of_ne (d : DMat) (mn mx : ℚ)
    (hmn : finitemin d = Except.ok mn) (hmx : finitemax d = Except.ok mx)
    (hne : mn ≠ mx) :
    ∃ out, normalize_image d none none = Except.ok out ∧
      List.Forall₂ (List.Forall₂ fun v o =>
        (∀ q : ℚ, v = Val.fin q →
          o = some ((truncInt ((q - mn) / (mx - mn) * 255)).emod 256).toNat) ∧
        (∀ n : ℕ, o = some n → n < 256)) d out := by
  refine ⟨_, normalize_image_default_eq d mn mx hmn hmx, ?_⟩
  refine forall2_map_self _ _ _ fun row _ => forall2_map_self _ _ _ fun v _ => ⟨?_, ?_⟩
  · rintro q rfl
    exact normalize_pixel_fin mn mx q hne
  · intro n hn
    cases v with
    | fin q =>
        rw [normalize_pixel_fin mn mx q hne] at hn
        rcases Option.some.inj hn with rfl
        exact u8_bound _
    | nan => rw [normalize_pixel_nonfin mn mx Val.nan (by intro q h; cases h)] at hn; cases hn
    | posInf => rw [normalize_pixel_nonfin mn mx Val.posInf (by intro q h; cases h)] at hn; cases hn
    | negInf => rw [normalize_pixel_nonfin mn mx Val.negInf (by intro q h; cases h)] at hn; cases hn

/-- Witness for C3's amended theorem on the concrete array `[[0, 2]]`. -/
theorem normalize_formula_of_ne_witness :
    finitemin [ [ Val.fin 0, Val.fin 2 ] ] = Except.ok 0 ∧
    (0 : ℚ) ≠ 2 ∧
    ∃ out, normalize_image [ [ Val.fin 0, Val.fin 2 ] ] none none = Except.ok out ∧
      List.Forall₂ (List.Forall₂ fun v o =>
        (∀ q : ℚ, v = Val.fin q →
          o = some ((truncInt ((q - 0) / (2 - 0) * 255)).emod 256).toNat) ∧
        (∀ n : ℕ, o = some n → n < 256)) [ [ Val.fin 0, Val.fin 2 ] ] out := by
  have hmn : finitemin [ [ Val.fin 0, Val.fin 2 ] ] = Except.ok 0 := by
    simp [finitemin, finiteVals]
  have hmx : finitemax [ [ Val.fin 0, Val.fin 2 ] ] = Except.ok 2 := by
    simp [finitemax, finiteVals]
  exact ⟨hmn, by norm_num,
    normalize_formula_of_ne [ [ Val.fin 0, Val.fin 2 ] ] 0 2 hmn hmx (by norm_num)⟩

/-- C10: when the default finite minimum and maximum coincide (all finite
entries equal), the divisor `vmax - vmin` is exactly zero, yet
`normalize_image` reports no error: it returns a result in which no pixel
has a well-defined value (the `0/0` NaN reaches the unsigned-8-bit cast). -/
theorem normalize_equal_range_division_by_zero (d : DMat) (c : ℚ)
    (hmn : finitemin d = Except.ok c) (hmx : finitemax d = Except.ok c) :
    Val.sub (Val.fin c) (Val.fin c) = Val.fin 0 ∧
    ∃ out, normalize_image d none none = Except.ok out ∧
      List.Forall₂ (List.Forall₂ fun _ o => o = none) d out := by
  refine ⟨by simp [Val.sub, sub_self], _, normalize_image_default_eq d c c hmn hmx, ?_⟩
  exact forall2_map_self _ _ _ fun row _ =>
    forall2_map_self _ _ _ fun v _ => normalize_pixel_eq_range c v

/-- Witness for C10 on the concrete array `[[5]]`: all finite entries equal,
no error is raised, and the single pixel has no defined value. -/
theorem normalize_equal_range_witness :
    finitemin [ [ Val.fin 5 ] ] = Except.ok 5 ∧
    ∃ out, normalize_image [ [ Val.fin 5 ] ] none none = Except.ok out ∧
      List.Forall₂ (List.Forall₂ fun _ o => o = none) [ [ Val.fin 5 ] ] out :=
  ⟨rfl, (normalize_equal_range_division_by_zero [ [ Val.fin 5 ] ] 5 rfl rfl).2⟩

end DepthView

namespace DepthView

/-- C4: `parse_args_to_params` does select the resolution the flag names
(here `--resolution HD720`), but `capture_main` then unconditionally
overwrites `camera_resolution` with `HD2K` before `zed.open`, so for every
argument vector — flag supplied or not — the resolution actually used at
device open is `HD2K`, never the flag's choice nor the device-native
default. -/
theorem capture_resolution_override :
    (parse_args_to_params { resolution := "HD720" } {}).camera_resolution = Resolution.HD720 ∧
    (parse_args_to_params {} {}).camera_resolution = Resolution.AUTO ∧
    ∀ args : CaptureArgs, (capture_open_params args).camera_resolution = Resolution.HD2K := by
  refine ⟨by decide, by decide, fun args => rfl⟩

/-- C5: the name `zed_capture.py` imports from `depthview.depth_view` and
calls for the live preview, `as_colorimage`, is not among the names that
module defines (the colorize function it does define is
`depth_as_colorimage`), so the import fails. -/
theorem capture_colorize_import_missing :
    zed_capture_depth_view_import ∉ depth_view_module_defs ∧
    "depth_as_colorimage" ∈ depth_view_module_defs := by
  decide

/-- C6 (counterexample): with 3 left images, an empty right collection and
3 depth arrays, 2D playback processes 3 pairs, not 0 — the shortest of the
three collections (right, here empty) does not bound the iteration, because
`view_by_colormap` never reads the right collection. -/
theorem view_pairs_ignores_right :
    (view_by_colormap_pairs
      ⟨ [ "left_00000.png", "left_00001.png", "left_00002.png" ], [],
        [ "zeddepth_00000.npy", "zeddepth_00001.npy", "zeddepth_00002.npy" ] ⟩).length = 3 ∧
    min (min 3 0) 3 = 0 ∧ (3 : ℕ) ≠ 0 :=
  ⟨rfl, rfl, by decide⟩

/-- C6 (amended): for every session directory, 2D playback zips the sorted
left-image collection with the sorted depth collection positionally and
processes exactly `min |left| |depth|` aligned pairs, whatever the right
collection holds; in particular 3 left, 3 right and 2 depth give exactly 2
pairs, and the extra files are never touched (the zip is total). -/
theorem view_pairs_length (s : SessionDir) :
    (view_by_colormap_pairs s).length = min s.left_pngs.length s.depth_npys.length := by
  simp [view_by_colormap_pairs, pySorted_length]

/-- C7: whenever both `--input_svo_file` and `--ip_address` are non-empty,
`main` reports the usage error and terminates: the run's whole event trace
is the usage-error exit, and in particular no camera open is attempted. -/
theorem usage_error_precedes_device_io (args : CaptureArgs) (w : CamWorld)
    (hs : 0 < args.input_svo_file.length) (hi : 0 < args.ip_address.length) :
    main_events args w = ([CapEv.usageErrorExit], CapTerm.usage) ∧
    CapEv.cameraOpen ∉ (main_events args w).1 := by
  have h : main_events args w = ([CapEv.usageErrorExit], CapTerm.usage) := by
    unfold main_events
    rw [if_pos ⟨hs, hi⟩]
  refine ⟨h, ?_⟩
  rw [h]
  simp

/-- Witness for C7 at a concrete argument vector supplying both sources. -/
theorem usage_error_witness :
    0 < ("replay.svo" : String).length ∧
    main_events { input_svo_file := "replay.svo", ip_address := "1.2.3.4" } ⟨true, []⟩
      = ([CapEv.usageErrorExit], CapTerm.usage) :=
  ⟨by decide,
    (usage_error_precedes_device_io
      { input_svo_file := "replay.svo", ip_address := "1.2.3.4" } ⟨true, []⟩
      (by decide) (by decide)).1⟩

/-- C9: the quit-key exit path is reachable (pressing `q` on the first
grabbed frame terminates the run), yet on no run of the capture command —
whatever the arguments and however the camera behaves — does the event
trace ever contain a camera close or a window destroy: the `while True`
loop only leaves via `exit()`, and the `zed.close()` written after the loop
is unreachable, so handles are never released on any exit path. -/
theorem capture_never_releases :
    (main_events {} ⟨true, [ (true, 113) ]⟩).2 = CapTerm.quitByKey ∧
    ∀ (args : CaptureArgs) (w : CamWorld),
      CapEv.cameraClose ∉ (main_events args w).1 ∧
      CapEv.windowDestroy ∉ (main_events args w).1 := by
  refine ⟨by decide, fun args w => ?_⟩
  unfold main_events
  by_cases husage : 0 < args.input_svo_file.length ∧ 0 < args.ip_address.length
  · rw [if_pos husage]
    simp
  · rw [if_neg husage]
    unfold capture_main_events
    cases hopen : w.open_ok with
    | false => simp
    | true =>
      simp only [if_pos rfl]
      constructor
      · intro hmem
        simp at hmem
        rcases capture_loop_events_shape w.frames 0 _ hmem with h1 | h1 | ⟨i, h1⟩ <;> cases h1
      · intro hmem
        simp at hmem
        rcases capture_loop_events_shape w.frames 0 _ hmem with h1 | h1 | ⟨i, h1⟩ <;> cases h1

/-- C8: for every image and positive scale factor, `resize_image` produces
an image whose height and width are the source dimensions scaled and
truncated toward zero (for a positive product, truncation toward zero is
the floor), with the channel count unchanged. -/
theorem resize_image_dims (img : Image) (r : ℚ) (hr : 0 < r) :
    (resize_image img r).height = Int.toNat ⌊(img.height : ℚ) * r⌋ ∧
    (resize_image img r).width = Int.toNat ⌊(img.width : ℚ) * r⌋ ∧
    (resize_image img r).channels = img.channels := by
  have hh : (0:ℚ) ≤ (img.height : ℚ) * r := mul_nonneg (Nat.cast_nonneg _) hr.le
  have hw : (0:ℚ) ≤ (img.width : ℚ) * r := mul_nonneg (Nat.cast_nonneg _) hr.le
  refine ⟨?_, ?_, rfl⟩
  · simp [resize_image, cv2_resize, pyInt, truncInt, hh]
  · simp [resize_image, cv2_resize, pyInt, truncInt, hw]

/-- Witness for C8: a 100×200 3-channel image at scale 1/2 resizes to
50×100, matching the theorem's floor formula. -/
theorem resize_image_dims_witness :
    (0:ℚ) < 1/2 ∧
    (resize_image (Image.mk 100 200 3) (1/2)).height = Int.toNat ⌊(100 : ℚ) * (1/2)⌋ ∧
    resize_image (Image.mk 100 200 3) (1/2) = Image.mk 50 100 3 := by
  refine ⟨by norm_num, ?_, ?_⟩
  · exact (resize_image_dims (Image.mk 100 200 3) (1/2) (by norm_num)).1
  · have hh : (100 : ℚ) * (1/2) = 50 := by norm_num
    have hw : (200 : ℚ) * (1/2) = 100 := by norm_num
    simp only [resize_image, cv2_resize, pyInt, truncInt]
    norm_num [hh, hw]
    exact ⟨rfl, rfl⟩

end DepthView
